import Mathlib

/-!
Verification of the SharePoint-table-to-JSON sync pipeline
(`scripts/sharepoint_to_json.py`).

Shallow embedding conventions:
* Cell values coming out of the workbook JSON are modelled by `Value`
  (Python `None`, `str`, `int`, `float`); floats are modelled as exact
  rationals (`Rat`), so float arithmetic is ideal rational arithmetic.
* Python strings are Lean `String`s; the string helpers of the script
  (`strip`, `lower`, `replace`, slicing) are modelled character-listwise,
  with ASCII whitespace/case as the model of Python's notions.
* `die(msg, code)` raises `SystemExit(code)`; a function that can call it
  is modelled with `Except (String × Nat)`, the error carrying the logged
  message and exit code.
* Network traffic is modelled by explicit response oracles (attempt index
  to response, or URL to page), and `time.sleep` calls are recorded as a
  trace of durations.
-/

/-- Scalar cell values as they arrive from the workbook JSON: Python
`None`, `str`, `int` or `float` (floats modelled as exact rationals). -/
inductive Value where
  | none : Value
  | str (s : String) : Value
  | int (n : Int) : Value
  | float (q : Rat) : Value
deriving DecidableEq, Repr

/-- Python `str.strip()` on a character list (ASCII-whitespace model):
drop whitespace from both ends. -/
def stripChars (l : List Char) : List Char :=
  ((l.dropWhile Char.isWhitespace).reverse.dropWhile Char.isWhitespace).reverse

/-- Python `str.strip()` lifted to `String`. -/
def pyStrip (s : String) : String := ⟨stripChars s.data⟩

/-- Python `str.lower()` (ASCII model). -/
def pyLower (s : String) : String := ⟨s.data.map Char.toLower⟩

/-- Python `s[:n]`: the first `n` characters (code points) of a string. -/
def pyTake (s : String) (n : Nat) : String := ⟨s.data.take n⟩

/-- Python `str(x)` for a cell value. Ints print in decimal; the float
case uses the rational printer (the script only ever feeds it to
`strip`, so only the characters matter, never float-ulp formatting). -/
def pyStr : Value → String
  | .none => "None"
  | .str s => s
  | .int n => toString n
  | .float q => toString q

/-- The helper `safe_str` (lines 77-78): empty string for `None`, else
`str(x).strip()`. -/
def safe_str (x : Value) : String :=
  match x with
  | .none => ""
  | x => pyStrip (pyStr x)

/-- Numeric value of a list of decimal digit characters, most significant
first (the value computed by Python `int` on a digit string). -/
def digitsToNat (l : List Char) : Nat :=
  l.foldl (fun a c => a * 10 + (c.toNat - 48)) 0

/-- Python `int(s)` restricted to strings made of digits and minus signs
(the only strings the script feeds it): an optional single leading minus
followed by at least one digit parses, everything else raises. -/
def parseIntStr : List Char → Option Int
  | '-' :: rest =>
      if rest ≠ [] ∧ rest.all Char.isDigit then some (-(digitsToNat rest : Int))
      else Option.none
  | l =>
      if l ≠ [] ∧ l.all Char.isDigit then some ((digitsToNat l : Int))
      else Option.none

/-- Truncation of a rational toward zero, the behaviour of Python `int()`
on a float. -/
def ratTrunc (q : Rat) : Int := q.num.tdiv q.den

/-- The quantity coercion `to_int` (lines 61-75): `None` maps to 0, ints
and floats go through `int(x)`, strings are stripped, have every space
and non-breaking space removed, are filtered down to digit and minus
characters, and the remainder is parsed, any failure yielding 0. -/
def to_int (x : Value) : Int :=
  match x with
  | .none => 0
  | .int n => n
  | .float q => ratTrunc q
  | .str s0 =>
      let s := stripChars s0.data
      if s = [] then 0
      else
        let s1 := (s.filter (fun c => c ≠ ' ')).filter (fun c => c ≠ '\u00a0')
        let cleaned := s1.filter (fun c => c.isDigit || c = '-')
        if cleaned = [] then 0 else (parseIntStr cleaned).getD 0

/-- Formalisation of the spec sentence on quantity coercion, for
comparison with `to_int`: absent value maps to 0, a numeric value is
truncated to an integer, and a textual value has space and
non-breaking-space characters removed, keeps only digit and minus
characters, and is parsed as an integer with 0 on an empty or
unparseable remainder. -/
def to_int_spec (x : Value) : Int :=
  match x with
  | .none => 0
  | .int n => n
  | .float q => ratTrunc q
  | .str s =>
      let cleaned :=
        (s.data.filter (fun c => c ≠ ' ' ∧ c ≠ '\u00a0')).filter
          (fun c => c.isDigit || c = '-')
      (parseIntStr cleaned).getD 0

/-- A row as the script builds it: a Python dict from column name to cell
value, insertion ordered. -/
abbrev Row := List (String × Value)

/-- Python dict assignment `d[k] = v`: update in place if the key exists
(keeping its position), else append. -/
def dictInsert {β : Type} (d : List (String × β)) (k : String) (v : β) :
    List (String × β) :=
  if d.any (fun kv => kv.1 == k) then
    d.map (fun kv => if kv.1 == k then (k, v) else kv)
  else d ++ [(k, v)]

/-- Normalised form of a column header used by `pick_col`:
`k.strip().lower()`. -/
def normKey (k : String) : String := pyLower (pyStrip k)

/-- The `norm` dict lookup inside `pick_col` (lines 142-149): the last
key of the row whose normalised form matches the normalised candidate
(dict comprehensions let later keys overwrite earlier ones). -/
def normLookup (row : Row) (c : String) : Option String :=
  row.foldl
    (fun acc kv => if normKey kv.1 == normKey c then some kv.1 else acc)
    Option.none

/-- Python `row.get(k)`: value of the first entry with key `k`, `None`
when absent. -/
def dictGet (row : Row) (k : String) : Value :=
  match row.find? (fun kv => kv.1 == k) with
  | some kv => kv.2
  | Option.none => Value.none

/-- The column resolver `pick_col` (lines 142-149): try each candidate in
order under case-insensitive, whitespace-tolerant matching, returning the
first matching column's value, `None` when no candidate matches. -/
def pick_col (row : Row) : List String → Value
  | [] => Value.none
  | c :: cs =>
      match normLookup row c with
      | some k => dictGet row k
      | Option.none => pick_col row cs

/-- An output record of the snapshot: `{"SKU": ..., "Model": ..., "Qty": ...}`. -/
structure Item where
  SKU : String
  Model : String
  Qty : Int
deriving DecidableEq, Repr

/-- Ordering used by `items.sort(key=lambda x: x["SKU"])`: Python string
comparison is code-point lexicographic, i.e. the lexicographic order on
the character lists. -/
def skuLE (a b : Item) : Prop := a.SKU.data ≤ b.SKU.data

instance : DecidableRel skuLE := fun a b =>
  (inferInstance : Decidable (a.SKU.data ≤ b.SKU.data))

instance : IsTotal Item skuLE := ⟨fun a b => le_total a.SKU.data b.SKU.data⟩

instance : IsTrans Item skuLE := ⟨fun _ _ _ hab hbc => le_trans hab hbc⟩

/-- The sort at line 232: Python `list.sort` with a key is a stable
ascending sort, modelled by stable insertion sort under `skuLE`. -/
def sortItems (items : List Item) : List Item := items.insertionSort skuLE

/-- SKU column candidates (line 215): the override alone when set, else
the fixed alias list. -/
def sku_candidates (ov : String) : List String :=
  if ov ≠ "" then [ov] else ["SKU", "Артикул", "Sku"]

/-- Model column candidates (line 216). -/
def model_candidates (ov : String) : List String :=
  if ov ≠ "" then [ov] else ["Model", "Модель", "Наименование", "Название"]

/-- Qty column candidates (lines 217-220). -/
def qty_candidates (ov : String) : List String :=
  if ov ≠ "" then [ov]
  else
    ["Бронь для сервиса", "Бронь_для_сервиса", "Service reserve",
      "Service Reserve", "Qty, pcs", "Qty", "Количество", "Кол-во"]

/-- The row-normalisation loop (lines 222-229): for each raw row resolve
the SKU; skip the row if it is empty after trimming, else emit one record
with the resolved Model and coerced Qty. -/
def buildItems (skuC modelC qtyC : List String) : List Row → List Item
  | [] => []
  | row :: rest =>
      let sku := safe_str (pick_col row skuC)
      if sku = "" then buildItems skuC modelC qtyC rest
      else
        { SKU := sku, Model := safe_str (pick_col row modelC),
          Qty := to_int (pick_col row qtyC) } :: buildItems skuC modelC qtyC rest

/-- A `die(msg)` outcome: the logged message and the process exit code. -/
abbrev Die := String × Nat

/-- Lines 211-237 of `main`, from the zero-row check to the snapshot
write: `Except.ok items` means the run reaches line 237 and writes a
snapshot containing exactly `items`; `Except.error` means `die` fired
first and no snapshot was written. The three arguments are the (already
stripped) optional column-override env values. -/
def finishRun (ovSku ovModel ovQty : String) (rows_out : List Row) :
    Except Die (List Item) :=
  if rows_out = [] then
    .error ("Parsed 0 rows from table. Possibly empty table or permission issue.", 2)
  else
    .ok (sortItems
      (buildItems (sku_candidates ovSku) (model_candidates ovModel)
        (qty_candidates ovQty) rows_out))

/-- One page of the rows endpoint as the loop reads it: the list of raw
rows (each row the cell list `(r.get("values") or [[]])[0]`) and the
`@odata.nextLink` field (`Option.none` models an absent or null field). -/
structure PageJson where
  value : List (List Value)
  nextLink : Option String
deriving DecidableEq, Repr

/-- The row dict built at line 207: `{col_names[i]: values[i] if
i < len(values) else None}` over the column names in index order. -/
def mkRow (colNames : List String) (values : List Value) : Row :=
  (List.range colNames.length).foldl
    (fun d i => dictInsert d (colNames.getD i "") (values.getD i Value.none)) []

/-- Rows contributed by one fetched page (lines 205-208). -/
def collectStep (colNames : List String) (p : PageJson) : List Row :=
  p.value.map (fun vals => mkRow colNames vals)

/-- The pagination loop (lines 203-209): `while url:` with
`url = rows_json.get("@odata.nextLink")` after each page. `server` maps a
URL to the page the fetcher returns for it; `fuel` bounds the number of
fetches (the Python loop itself need not terminate on cyclic links, so
`Option.none` is the did-not-terminate-within-fuel outcome). The loop
condition is Python truthiness: it runs only while the url is a present,
non-empty string. -/
def whileUrl (server : String → PageJson) (colNames : List String) :
    Nat → Option String → List Row → Option (List Row)
  | _, Option.none, acc => some acc
  | fuel, some u, acc =>
      if u = "" then some acc
      else
        match fuel with
        | 0 => Option.none
        | fuel + 1 =>
            whileUrl server colNames fuel (server u).nextLink
              (acc ++ collectStep colNames (server u))

/-- A single HTTP response as `graph_get` inspects it: status code, the
`Retry-After` header, the parsed JSON body (abstract type `α`) and the
raw text. -/
structure Response (α : Type) where
  status : Nat
  retryAfter : Option String
  json : α
  text : String

/-- Result of `graph_get`: a normal return of a parsed body, or a `die`
with its message. -/
inductive GetOutcome (α : Type) where
  | ok (body : α) : GetOutcome α
  | fatal (msg : String) : GetOutcome α
deriving DecidableEq, Repr

/-- Membership in the transient-status tuple `(429, 500, 502, 503, 504)`. -/
def retriable (status : Nat) : Bool :=
  status == 429 || status == 500 || status == 502 || status == 503 || status == 504

/-- The sleep duration chosen at lines 132-133: the `Retry-After` header
value when it is a non-empty all-digit string, else the current backoff. -/
def retryWait (retryAfter : Option String) (backoff : Rat) : Rat :=
  match retryAfter with
  | some ra =>
      if ra ≠ "" ∧ ra.data.all Char.isDigit then ((digitsToNat ra.data : Nat) : Rat)
      else backoff
  | Option.none => backoff

/-- `min(backoff * 1.8, 30)` at line 136 (ideal rational float model). -/
def nextBackoff (backoff : Rat) : Rat :=
  if backoff * (9 / 5) ≤ 30 then backoff * (9 / 5) else 30

/-- The retry loop of `graph_get` (lines 124-140): `resp i` is the
response to the `i`-th request (attempts numbered from 1), `fuel` the
remaining iterations of `for attempt in range(1, max_retries + 1)`.
Besides the outcome it returns the trace of `time.sleep` durations. -/
def graphGetLoop {α : Type} (resp : Nat → Response α) (url : String) :
    Nat → Nat → Rat → List Rat → GetOutcome α × List Rat
  | 0, _, _, waits => (.fatal ("Graph GET failed after retries: " ++ url), waits)
  | fuel + 1, attempt, backoff, waits =>
      let r := resp attempt
      if r.status = 200 then (.ok r.json, waits)
      else if retriable r.status then
        graphGetLoop resp url fuel (attempt + 1) (nextBackoff backoff)
          (waits ++ [retryWait r.retryAfter backoff])
      else
        (.fatal ("Graph GET failed: " ++ url ++ "\nHTTP " ++ toString r.status
            ++ " — " ++ pyTake r.text 600), waits)

/-- `graph_get(url, token, max_retries)` with its response oracle:
backoff starts at 2.0 and attempts are numbered from 1. -/
def graph_get {α : Type} (resp : Nat → Response α) (url : String)
    (maxRetries : Nat) : GetOutcome α × List Rat :=
  graphGetLoop resp url maxRetries 1 2 []

/-- The accumulation loop of `require_env` (lines 47-52): walk the names,
stripping each `os.getenv(n, "")` value; empty values push the name onto
`missing`, the rest are stored in the result dict. -/
def requireEnvGo (env : String → String) :
    List String → List (String × String) → List String →
      List (String × String) × List String
  | [], out, missing => (out, missing)
  | n :: ns, out, missing =>
      let v := pyStrip (env n)
      if v = "" then requireEnvGo env ns out (missing ++ [n])
      else requireEnvGo env ns (dictInsert out n v) missing

/-- The fatal message of `require_env` (lines 54-58), enumerating every
missing name. -/
def envFailMsg (missing : List String) : String :=
  "Missing required env vars: " ++ String.intercalate ", " missing
    ++ "\n➡️ Check GitHub Secrets / workflow env mapping."

/-- `require_env(*names)` (lines 44-59) over the environment `env`
(modelling `os.getenv(n, "")`): dies with code 2 listing all missing
names when any value strips to empty, else returns the dict of stripped
values. -/
def require_env (names : List String) (env : String → String) :
    Except Die (List (String × String)) :=
  let r := requireEnvGo env names [] []
  if r.2 ≠ [] then .error (envFailMsg r.2, 2) else .ok r.1

/-- The seven mandatory variables `main` requires (lines 154-157). -/
def mandatoryEnvNames : List String :=
  ["TENANT_ID", "CLIENT_ID", "CLIENT_SECRET", "SP_SITE_HOSTNAME",
    "SP_SITE_PATH", "SP_XLSX_PATH", "SP_TABLE_NAME"]

example :
    buildItems ["SKU"] ["Model"] ["Qty"]
      [mkRow ["SKU", "Qty"] [Value.str "A1", Value.str "5"],
        mkRow ["SKU", "Qty"] [Value.str "", Value.str "3"],
        mkRow ["SKU", "Qty"] [Value.str "B2", Value.str ""]] =
      [⟨"A1", "", 5⟩, ⟨"B2", "", 0⟩] := by decide

/-- C1: a record appears in the output exactly when the row's resolved
SKU (override/alias resolution via `pick_col`, trimming via `safe_str`)
is non-empty: the kept-record list is precisely the map over the rows
whose resolved SKU is non-empty, each such row contributing exactly one
record whatever its Model or Qty resolve to; rows with an empty resolved
SKU are dropped without error. -/
theorem buildItems_record_iff_sku (skuC modelC qtyC : List String) (rows : List Row) :
    buildItems skuC modelC qtyC rows =
      (rows.filter (fun r => safe_str (pick_col r skuC) != "")).map
        (fun r =>
          { SKU := safe_str (pick_col r skuC), Model := safe_str (pick_col r modelC),
            Qty := to_int (pick_col r qtyC) }) := by
  induction rows with
  | nil => rfl
  | cons r rest ih =>
      by_cases h : safe_str (pick_col r skuC) = ""
      · simp [buildItems, h, ih]
      · simp [buildItems, h, ih]

/-- C4: the six quantity-coercion examples of the spec, with the float
`7.9` modelled as the exact rational `7.9`. -/
theorem to_int_examples :
    to_int (Value.str "1 234") = 1234 ∧ to_int (Value.str "-12") = -12 ∧
      to_int (Value.str "") = 0 ∧ to_int Value.none = 0 ∧
      to_int (Value.str "abc") = 0 ∧ to_int (Value.float (7.9 : Rat)) = 7 := by
  refine ⟨by decide, by decide, by decide, by decide, by decide, ?_⟩
  show ratTrunc (7.9 : Rat) = 7
  norm_num [ratTrunc]
  decide

/-- C3 counterexample: a run that collected one row whose resolved SKU is
empty passes the zero-row check, filters every row out, and writes a
snapshot containing zero records — so a written snapshot need not contain
a record. -/
theorem finishRun_writes_empty_snapshot :
    finishRun "" "" "" [mkRow ["SKU"] [Value.str ""]] = .ok ([] : List Item) := rfl

/-- C3 (amended): if the pagination collector accumulated zero rows, the
run dies (exit code 2) before reaching the snapshot write, so no snapshot
at all is produced for that run. -/
theorem finishRun_zero_rows_fatal (ovSku ovModel ovQty : String) :
    finishRun ovSku ovModel ovQty [] =
      .error ("Parsed 0 rows from table. Possibly empty table or permission issue.", 2) :=
  rfl

lemma filter_orderedInsert_self (x : Item) (l : List Item) :
    (List.orderedInsert skuLE x l).filter (fun it => it.SKU == x.SKU) =
      x :: l.filter (fun it => it.SKU == x.SKU) := by
  induction l with
  | nil => simp [List.orderedInsert]
  | cons y ys ih =>
      by_cases h : skuLE x y
      · simp [List.orderedInsert, h]
      · have hlt : y.SKU.data < x.SKU.data := not_le.mp h
        have hne : (y.SKU == x.SKU) = false := by
          refine beq_eq_false_iff_ne.mpr ?_
          intro he
          exact absurd (he ▸ hlt) (lt_irrefl _)
        simp [List.orderedInsert, h, hne, ih]

lemma filter_orderedInsert_ne (s : String) (x : Item) (h : x.SKU ≠ s) (l : List Item) :
    (List.orderedInsert skuLE x l).filter (fun it => it.SKU == s) =
      l.filter (fun it => it.SKU == s) := by
  have hx : (x.SKU == s) = false := beq_eq_false_iff_ne.mpr h
  induction l with
  | nil => simp [List.orderedInsert, hx]
  | cons y ys ih =>
      by_cases hr : skuLE x y
      · simp [List.orderedInsert, hr, hx]
      · simp [List.orderedInsert, hr, List.filter_cons, ih]

lemma filter_insertionSort_eq (s : String) (l : List Item) :
    (l.insertionSort skuLE).filter (fun it => it.SKU == s) =
      l.filter (fun it => it.SKU == s) := by
  induction l with
  | nil => rfl
  | cons x xs ih =>
      rw [List.insertionSort]
      by_cases h : x.SKU = s
      · subst h
        rw [filter_orderedInsert_self, ih, List.filter_cons_of_pos]
        simp
      · rw [filter_orderedInsert_ne s x h, ih, List.filter_cons_of_neg]
        simp [h]

/-- C2: `items.sort(key=lambda x: x["SKU"])` yields, for any input
ordering of the kept records, a permutation of them that is sorted
ascending under SKU string comparison (`skuLE` agrees with the `String`
order), and the sort is stable: for each SKU value the records carrying
it keep their relative input order (equal filtered subsequences). -/
theorem sortItems_sorted_stable (items : List Item) :
    List.Sorted skuLE (sortItems items) ∧ (sortItems items).Perm items ∧
      (∀ a b : Item, skuLE a b ↔ a.SKU ≤ b.SKU) ∧
      ∀ s : String, (sortItems items).filter (fun it => it.SKU == s) =
        items.filter (fun it => it.SKU == s) :=
  ⟨List.sorted_insertionSort skuLE items, List.perm_insertionSort skuLE items,
    fun _ _ => String.le_iff_toList_le.symm, fun s => filter_insertionSort_eq s items⟩

lemma filter_filter_of_imp {α : Type} {p q : α → Bool}
    (h : ∀ c, p c = true → q c = true) (l : List α) :
    (l.filter q).filter p = l.filter p := by
  rw [List.filter_filter]
  refine List.filter_congr ?_
  intro c _
  by_cases hp : p c = true
  · simp [hp, h c hp]
  · simp [Bool.eq_false_iff.mpr hp]

lemma filter_dropWhile_of_excl {p w : Char → Bool} (h : ∀ c, w c = true → p c = false) :
    ∀ l : List Char, (l.dropWhile w).filter p = l.filter p := by
  intro l
  induction l with
  | nil => rfl
  | cons c cs ih =>
      by_cases hw : w c = true
      · rw [List.dropWhile_cons, if_pos hw, ih, List.filter_cons,
          if_neg (by simp [h c hw])]
      · rw [List.dropWhile_cons, if_neg hw]

lemma filter_stripChars_eq {p : Char → Bool} (h : ∀ c, c.isWhitespace = true → p c = false)
    (l : List Char) : (stripChars l).filter p = l.filter p := by
  unfold stripChars
  rw [List.filter_reverse, filter_dropWhile_of_excl h, List.filter_reverse,
    filter_dropWhile_of_excl h, List.reverse_reverse]

lemma keep_not_space (c : Char) (hc : (c.isDigit || c = '-') = true) : c ≠ ' ' := by
  rintro rfl
  exact absurd hc (by decide)

lemma keep_not_nbsp (c : Char) (hc : (c.isDigit || c = '-') = true) : c ≠ '\u00a0' := by
  rintro rfl
  exact absurd hc (by decide)

lemma ws_keep_false (c : Char) (hw : c.isWhitespace = true) :
    (c.isDigit || c = '-') = false := by
  simp only [Char.isWhitespace, Bool.or_eq_true, decide_eq_true_eq] at hw
  rcases hw with ((hw | hw) | hw) | hw <;> subst hw <;> decide

lemma to_int_str_eq (s : String) :
    to_int (Value.str s) =
      (parseIntStr (s.data.filter (fun c => c.isDigit || c = '-'))).getD 0 := by
  simp only [to_int]
  by_cases h0 : stripChars s.data = []
  · rw [if_pos h0]
    have hnil : s.data.filter (fun c => c.isDigit || c = '-') = [] := by
      rw [← filter_stripChars_eq ws_keep_false, h0]
      rfl
    rw [hnil]
    rfl
  · rw [if_neg h0]
    rw [filter_filter_of_imp (fun c hc => decide_eq_true (keep_not_nbsp c hc)),
      filter_filter_of_imp (fun c hc => decide_eq_true (keep_not_space c hc)),
      filter_stripChars_eq ws_keep_false]
    by_cases hc : s.data.filter (fun c => c.isDigit || c = '-') = []
    · rw [if_pos hc, hc]
      rfl
    · rw [if_neg hc]

lemma to_int_spec_str_eq (s : String) :
    to_int_spec (Value.str s) =
      (parseIntStr (s.data.filter (fun c => c.isDigit || c = '-'))).getD 0 := by
  simp only [to_int_spec]
  rw [filter_filter_of_imp
    (fun c hc => decide_eq_true ⟨keep_not_space c hc, keep_not_nbsp c hc⟩)]

/-- C5: the quantity coercion behaves exactly as the spec's description:
`None` yields 0, numeric values are truncated toward zero, and a textual
value, after removal of space and non-breaking-space characters and
restriction to digit and minus characters, is parsed as an integer with
0 for an empty or unparseable remainder (the `strip()` and the early
empty-string return of the code are absorbed by that description). -/
theorem to_int_matches_spec (x : Value) : to_int x = to_int_spec x := by
  cases x with
  | none => rfl
  | str s => rw [to_int_str_eq, to_int_spec_str_eq]
  | int n => rfl
  | float q => rfl

/-- A terminating chain of next links under `server`: each page of the
chain points to the next URL of the list with a present non-empty link,
and the last page's link is absent (or present but empty, which the
`while url:` truthiness test also treats as the end). -/
def LinkChain (server : String → PageJson) : List String → Prop
  | [] => True
  | [u] => (server u).nextLink = Option.none ∨ (server u).nextLink = some ""
  | u :: u2 :: rest =>
      (server u).nextLink = some u2 ∧ u2 ≠ "" ∧ LinkChain server (u2 :: rest)

lemma whileUrl_exit_none (server : String → PageJson) (colNames : List String)
    (fuel : Nat) (acc : List Row) :
    whileUrl server colNames fuel Option.none acc = some acc := by
  cases fuel <;> rfl

lemma whileUrl_exit_empty (server : String → PageJson) (colNames : List String)
    (fuel : Nat) (acc : List Row) :
    whileUrl server colNames fuel (some "") acc = some acc := by
  cases fuel <;> rfl

lemma whileUrl_step (server : String → PageJson) (colNames : List String)
    (fuel : Nat) (u : String) (acc : List Row) (hu : u ≠ "") :
    whileUrl server colNames (fuel + 1) (some u) acc =
      whileUrl server colNames fuel (server u).nextLink
        (acc ++ collectStep colNames (server u)) := by
  rw [whileUrl, if_neg hu]

/-- C8 (amended): for every finite chain of pages the pagination loop
fetches each page of the chain in turn, appends its rows (however many,
including zero) to the accumulator, follows the next-link while it is
present and non-empty, and terminates exactly at the first page whose
next-link field is absent or empty, returning the concatenation of every
fetched page's rows. -/
theorem whileUrl_chain (server : String → PageJson) (colNames : List String) :
    ∀ (us : List String) (u0 : String) (acc : List Row) (fuel : Nat),
      LinkChain server (u0 :: us) → u0 ≠ "" → (u0 :: us).length ≤ fuel →
      whileUrl server colNames fuel (some u0) acc =
        some (acc ++ (u0 :: us).flatMap (fun u => collectStep colNames (server u))) := by
  intro us
  induction us with
  | nil =>
      intro u0 acc fuel hchain h0 hfuel
      match fuel, hfuel with
      | fuel + 1, _ =>
          rw [whileUrl_step server colNames fuel u0 acc h0]
          rcases hchain with h | h
          · rw [h, whileUrl_exit_none]
            simp
          · rw [h, whileUrl_exit_empty]
            simp
  | cons u1 rest ih =>
      intro u0 acc fuel hchain h0 hfuel
      obtain ⟨hlink, hne, htail⟩ := hchain
      match fuel, hfuel with
      | fuel + 1, hf =>
          rw [whileUrl_step server colNames fuel u0 acc h0, hlink,
            ih u1 (acc ++ collectStep colNames (server u0)) fuel htail hne
              (by simpa using Nat.le_of_succ_le_succ hf)]
          simp

/-- A server whose every page carries a present-but-empty next-link
field, used to separate "field present" from "loop continues". -/
def emptyLinkServer : String → PageJson := fun _ => ⟨[], some ""⟩

/-- C8 counterexample: a page response can contain the next-link field
(`isSome`) and the loop nevertheless terminates right after it, because
the field's value is the empty string, which is falsy for `while url:` —
so "terminates exactly when the response contains no next-link field" is
not literally true of the code. -/
theorem whileUrl_stops_despite_link_present :
    (emptyLinkServer "start").nextLink.isSome = true ∧
      whileUrl emptyLinkServer ["SKU"] 5 (some "start") [] = some [] := ⟨rfl, rfl⟩

/-- A two-page server for exercising the pagination theorem. -/
def twoPageServer : String → PageJson := fun u =>
  if u = "p1" then ⟨[[Value.str "A"]], some "p2"⟩ else ⟨[[Value.str "B"]], Option.none⟩

/-- Witness for the pagination theorem on a concrete two-page chain. -/
theorem whileUrl_chain_witness :
    whileUrl twoPageServer ["SKU"] 2 (some "p1") [] =
      some ([] ++ (["p1", "p2"].flatMap (fun u => collectStep ["SKU"] (twoPageServer u)))) :=
  whileUrl_chain twoPageServer ["SKU"] ["p2"] "p1" [] 2
    ⟨rfl, by decide, Or.inl rfl⟩ (by decide) (by decide)

lemma retriable_ne_200 (s : Nat) (h : retriable s = true) : s ≠ 200 := by
  rintro rfl
  exact absurd h (by decide)

lemma graphGetLoop_200 {α : Type} (resp : Nat → Response α) (url : String)
    (fuel attempt : Nat) (backoff : Rat) (waits : List Rat)
    (h200 : (resp attempt).status = 200) :
    graphGetLoop resp url (fuel + 1) attempt backoff waits =
      (.ok (resp attempt).json, waits) := by
  simp only [graphGetLoop]
  rw [if_pos h200]

lemma graphGetLoop_retry {α : Type} (resp : Nat → Response α) (url : String)
    (fuel attempt : Nat) (backoff : Rat) (waits : List Rat)
    (hr : retriable (resp attempt).status = true) :
    graphGetLoop resp url (fuel + 1) attempt backoff waits =
      graphGetLoop resp url fuel (attempt + 1) (nextBackoff backoff)
        (waits ++ [retryWait (resp attempt).retryAfter backoff]) := by
  simp only [graphGetLoop]
  rw [if_neg (retriable_ne_200 _ hr), if_pos hr]

lemma graphGetLoop_nonretriable {α : Type} (resp : Nat → Response α) (url : String)
    (fuel attempt : Nat) (backoff : Rat) (waits : List Rat)
    (h200 : (resp attempt).status ≠ 200) (hr : retriable (resp attempt).status = false) :
    graphGetLoop resp url (fuel + 1) attempt backoff waits =
      (.fatal ("Graph GET failed: " ++ url ++ "\nHTTP "
          ++ toString (resp attempt).status ++ " — "
          ++ pyTake (resp attempt).text 600), waits) := by
  simp only [graphGetLoop]
  rw [if_neg h200, if_neg (by simp [hr])]

lemma graphGetLoop_all_retriable {α : Type} (resp : Nat → Response α) (url : String) :
    ∀ (fuel attempt : Nat) (backoff : Rat) (waits : List Rat),
      (∀ i, attempt ≤ i → i < attempt + fuel → retriable (resp i).status = true) →
      (graphGetLoop resp url fuel attempt backoff waits).1 =
        .fatal ("Graph GET failed after retries: " ++ url) := by
  intro fuel
  induction fuel with
  | zero => intro attempt backoff waits _; rfl
  | succ fuel ih =>
      intro attempt backoff waits h
      have hr : retriable (resp attempt).status = true := h attempt le_rfl (by omega)
      rw [graphGetLoop_retry resp url fuel attempt backoff waits hr]
      exact ih (attempt + 1) _ _ (fun i h1 h2 => h i (by omega) (by omega))

/-- C6: fetch policy of `graph_get` — a 200 response returns its parsed
body; a status in the transient set causes a retry (the loop moves on to
the next attempt); any other non-200 status dies immediately, the message
carrying the status code and the first 600 characters of the body; and a
run whose every attempt sees a transient status dies after the maximum
attempt count. -/
theorem graph_get_status_policy {α : Type} (resp : Nat → Response α) (url : String) :
    (∀ fuel attempt backoff waits, (resp attempt).status = 200 →
        graphGetLoop resp url (fuel + 1) attempt backoff waits =
          (.ok (resp attempt).json, waits)) ∧
    (∀ fuel attempt backoff waits, retriable (resp attempt).status = true →
        graphGetLoop resp url (fuel + 1) attempt backoff waits =
          graphGetLoop resp url fuel (attempt + 1) (nextBackoff backoff)
            (waits ++ [retryWait (resp attempt).retryAfter backoff])) ∧
    (∀ fuel attempt backoff waits, (resp attempt).status ≠ 200 →
        retriable (resp attempt).status = false →
        graphGetLoop resp url (fuel + 1) attempt backoff waits =
          (.fatal ("Graph GET failed: " ++ url ++ "\nHTTP "
              ++ toString (resp attempt).status ++ " — "
              ++ pyTake (resp attempt).text 600), waits)) ∧
    (∀ maxRetries : Nat,
        (∀ i, 1 ≤ i → i ≤ maxRetries → retriable (resp i).status = true) →
        (graph_get resp url maxRetries).1 =
          .fatal ("Graph GET failed after retries: " ++ url)) :=
  ⟨fun fuel attempt backoff waits h200 =>
      graphGetLoop_200 resp url fuel attempt backoff waits h200,
    fun fuel attempt backoff waits hr =>
      graphGetLoop_retry resp url fuel attempt backoff waits hr,
    fun fuel attempt backoff waits h200 hr =>
      graphGetLoop_nonretriable resp url fuel attempt backoff waits h200 hr,
    fun maxRetries h =>
      graphGetLoop_all_retriable resp url maxRetries 1 2 []
        (fun i h1 h2 => h i h1 (by omega))⟩

/-- Constant responses used as concrete oracles in the fetch witnesses. -/
def respOk : Nat → Response Nat := fun _ => ⟨200, Option.none, 42, "body"⟩

/-- A constantly-404 oracle (non-retriable failure). -/
def resp404 : Nat → Response Nat := fun _ => ⟨404, Option.none, 0, "not found"⟩

/-- A constantly-503 oracle without a Retry-After header. -/
def resp503 : Nat → Response Nat := fun _ => ⟨503, Option.none, 0, "unavailable"⟩

/-- Witness instantiating every clause of the fetch policy. -/
theorem graph_get_status_policy_witness :
    graphGetLoop respOk "u" 1 1 2 [] = (.ok (respOk 1).json, []) ∧
    graphGetLoop resp503 "u" 1 1 2 [] =
      graphGetLoop resp503 "u" 0 2 (nextBackoff 2)
        ([] ++ [retryWait (resp503 1).retryAfter 2]) ∧
    graphGetLoop resp404 "u" 1 1 2 [] =
      (.fatal ("Graph GET failed: " ++ "u" ++ "\nHTTP "
          ++ toString (resp404 1).status ++ " — "
          ++ pyTake (resp404 1).text 600), []) ∧
    (graph_get resp503 "u" 6).1 = .fatal ("Graph GET failed after retries: " ++ "u") :=
  ⟨(graph_get_status_policy respOk "u").1 0 1 2 [] rfl,
    (graph_get_status_policy resp503 "u").2.1 0 1 2 [] rfl,
    (graph_get_status_policy resp404 "u").2.2.1 0 1 2 [] (by decide) rfl,
    (graph_get_status_policy resp503 "u").2.2.2 6 (fun i _ _ => rfl)⟩

lemma graphGetLoop_ok_characterisation {α : Type} (resp : Nat → Response α) (url : String) :
    ∀ (fuel attempt : Nat) (backoff : Rat) (waits : List Rat) (body : α) (ws : List Rat),
      graphGetLoop resp url fuel attempt backoff waits = (.ok body, ws) →
      ∃ i, attempt ≤ i ∧ i < attempt + fuel ∧ (resp i).status = 200 ∧
        body = (resp i).json := by
  intro fuel
  induction fuel with
  | zero =>
      intro attempt backoff waits body ws h
      exact absurd h (by simp [graphGetLoop])
  | succ fuel ih =>
      intro attempt backoff waits body ws h
      by_cases h200 : (resp attempt).status = 200
      · rw [graphGetLoop_200 resp url fuel attempt backoff waits h200] at h
        have hb : (resp attempt).json = body := by
          simpa using congrArg Prod.fst h
        exact ⟨attempt, le_rfl, by omega, h200, hb.symm⟩
      · by_cases hr : retriable (resp attempt).status = true
        · rw [graphGetLoop_retry resp url fuel attempt backoff waits hr] at h
          obtain ⟨i, h1, h2, h3, h4⟩ := ih _ _ _ _ _ h
          exact ⟨i, by omega, by omega, h3, h4⟩
        · rw [graphGetLoop_nonretriable resp url fuel attempt backoff waits h200
            (Bool.eq_false_iff.mpr hr)] at h
          exact absurd (congrArg Prod.fst h) (by simp)

/-- C10: a normal return of `graph_get` is always the parsed body of a
200-status response seen at one of the attempts; every other path raises
through `die`, so the trailing fallback value after the loop is never the
function's result. -/
theorem graph_get_ok_is_200_body {α : Type} (resp : Nat → Response α) (url : String)
    (maxRetries : Nat) (body : α) (ws : List Rat)
    (h : graph_get resp url maxRetries = (.ok body, ws)) :
    ∃ i, 1 ≤ i ∧ i ≤ maxRetries ∧ (resp i).status = 200 ∧ body = (resp i).json := by
  obtain ⟨i, h1, h2, h3, h4⟩ :=
    graphGetLoop_ok_characterisation resp url maxRetries 1 2 [] body ws h
  exact ⟨i, h1, by omega, h3, h4⟩

/-- Witness: the always-200 oracle returns normally, and the returned
body is indeed some attempt's parsed 200 body. -/
theorem graph_get_ok_is_200_body_witness :
    ∃ i, 1 ≤ i ∧ i ≤ 6 ∧ (respOk i).status = 200 ∧ (42 : Nat) = (respOk i).json :=
  graph_get_ok_is_200_body respOk "u" 6 42 [] rfl

lemma retryWait_none (backoff : Rat) : retryWait Option.none backoff = backoff := rfl

lemma retryWait_digits (ra : String) (backoff : Rat) (hne : ra ≠ "")
    (hd : ra.data.all Char.isDigit = true) :
    retryWait (some ra) backoff = ((digitsToNat ra.data : Nat) : Rat) := by
  simp only [retryWait]
  rw [if_pos ⟨hne, hd⟩]

lemma retryWait_invalid (ra : String) (backoff : Rat)
    (h : ra = "" ∨ ra.data.all Char.isDigit = false) :
    retryWait (some ra) backoff = backoff := by
  simp only [retryWait]
  rcases h with h | h
  · rw [if_neg (by simp [h])]
  · rw [if_neg (by simp [h])]

/-- C7: the wait policy of `graph_get` — on a retriable status a
non-empty all-digit Retry-After header is used verbatim as the wait;
an absent or non-digit header falls back to the current backoff; and with
no usable hint anywhere the six attempts of a default run sleep exactly
2.0, 3.6, 6.48, 11.664, 20.9952 and 30.0 time-units (exact rational float
model: backoff starts at 2, multiplies by 1.8 per retried attempt, capped
at 30) before the fatal escalation. -/
theorem graph_get_backoff_policy {α : Type} (resp : Nat → Response α) (url : String) :
    (∀ fuel attempt backoff waits ra,
        retriable (resp attempt).status = true →
        (resp attempt).retryAfter = some ra →
        ra ≠ "" → ra.data.all Char.isDigit = true →
        graphGetLoop resp url (fuel + 1) attempt backoff waits =
          graphGetLoop resp url fuel (attempt + 1) (nextBackoff backoff)
            (waits ++ [((digitsToNat ra.data : Nat) : Rat)])) ∧
    (∀ fuel attempt backoff waits,
        retriable (resp attempt).status = true →
        (∀ ra, (resp attempt).retryAfter = some ra →
          ra = "" ∨ ra.data.all Char.isDigit = false) →
        graphGetLoop resp url (fuel + 1) attempt backoff waits =
          graphGetLoop resp url fuel (attempt + 1) (nextBackoff backoff)
            (waits ++ [backoff])) ∧
    ((∀ i, 1 ≤ i → i ≤ 6 →
        retriable (resp i).status = true ∧ (resp i).retryAfter = Option.none) →
      graph_get resp url 6 =
        (.fatal ("Graph GET failed after retries: " ++ url),
          [2, 3.6, 6.48, 11.664, 20.9952, 30])) := by
  refine ⟨?_, ?_, ?_⟩
  · intro fuel attempt backoff waits ra hr hra hne hd
    rw [graphGetLoop_retry resp url fuel attempt backoff waits hr, hra,
      retryWait_digits ra backoff hne hd]
  · intro fuel attempt backoff waits hr hra
    rw [graphGetLoop_retry resp url fuel attempt backoff waits hr]
    cases hcase : (resp attempt).retryAfter with
    | none => rw [retryWait_none]
    | some ra => rw [retryWait_invalid ra backoff (hra ra hcase)]
  · intro h
    obtain ⟨hr1, ha1⟩ := h 1 (by omega) (by omega)
    obtain ⟨hr2, ha2⟩ := h 2 (by omega) (by omega)
    obtain ⟨hr3, ha3⟩ := h 3 (by omega) (by omega)
    obtain ⟨hr4, ha4⟩ := h 4 (by omega) (by omega)
    obtain ⟨hr5, ha5⟩ := h 5 (by omega) (by omega)
    obtain ⟨hr6, ha6⟩ := h 6 (by omega) (by omega)
    show graphGetLoop resp url 6 1 2 [] = _
    rw [graphGetLoop_retry resp url 5 1 2 [] hr1, ha1, retryWait_none]
    rw [graphGetLoop_retry resp url 4 (1 + 1) _ _ hr2, ha2, retryWait_none]
    rw [graphGetLoop_retry resp url 3 (1 + 1 + 1) _ _ hr3, ha3, retryWait_none]
    rw [graphGetLoop_retry resp url 2 (1 + 1 + 1 + 1) _ _ hr4, ha4, retryWait_none]
    rw [graphGetLoop_retry resp url 1 (1 + 1 + 1 + 1 + 1) _ _ hr5, ha5, retryWait_none]
    rw [graphGetLoop_retry resp url 0 (1 + 1 + 1 + 1 + 1 + 1) _ _ hr6, ha6, retryWait_none]
    show (GetOutcome.fatal ("Graph GET failed after retries: " ++ url), _) = _
    refine Prod.ext rfl ?_
    show [] ++ [(2 : Rat)] ++ [nextBackoff 2] ++ [nextBackoff (nextBackoff 2)]
        ++ [nextBackoff (nextBackoff (nextBackoff 2))]
        ++ [nextBackoff (nextBackoff (nextBackoff (nextBackoff 2)))]
        ++ [nextBackoff (nextBackoff (nextBackoff (nextBackoff (nextBackoff 2))))] =
      [2, 3.6, 6.48, 11.664, 20.9952, 30]
    norm_num [nextBackoff]

/-- A constantly-throttling oracle carrying a digit Retry-After header. -/
def respRetryAfter : Nat → Response Nat := fun _ => ⟨429, some "7", 0, "throttled"⟩

/-- Witness instantiating every clause of the wait policy, including the
exact six-element hint-free wait trace. -/
theorem graph_get_backoff_policy_witness :
    graphGetLoop respRetryAfter "u" 1 1 2 [] =
      graphGetLoop respRetryAfter "u" 0 2 (nextBackoff 2)
        ([] ++ [((digitsToNat ("7" : String).data : Nat) : Rat)]) ∧
    graphGetLoop resp503 "u" 1 1 2 [] =
      graphGetLoop resp503 "u" 0 2 (nextBackoff 2) ([] ++ [(2 : Rat)]) ∧
    graph_get resp503 "u" 6 =
      (.fatal ("Graph GET failed after retries: " ++ "u"),
        [2, 3.6, 6.48, 11.664, 20.9952, 30]) :=
  ⟨(graph_get_backoff_policy respRetryAfter "u").1 0 1 2 [] "7" rfl rfl (by decide) rfl,
    (graph_get_backoff_policy resp503 "u").2.1 0 1 2 [] rfl (fun ra hra => nomatch hra),
    (graph_get_backoff_policy resp503 "u").2.2 (fun i _ _ => ⟨rfl, rfl⟩)⟩

lemma dictInsert_fresh {β : Type} (d : List (String × β)) (k : String) (v : β)
    (h : d.all (fun kv => kv.1 != k) = true) : dictInsert d k v = d ++ [(k, v)] := by
  unfold dictInsert
  rw [if_neg]
  simp only [List.all_eq_true, bne_iff_ne] at h
  simp only [List.any_eq_true, beq_iff_eq]
  rintro ⟨kv, hkv, rfl⟩
  exact h kv hkv rfl

lemma requireEnvGo_eq (env : String → String) :
    ∀ (ns : List String) (out : List (String × String)) (missing : List String),
      (∀ n ∈ ns, out.all (fun kv => kv.1 != n) = true) → ns.Nodup →
      requireEnvGo env ns out missing =
        (out ++ (ns.filter (fun n => pyStrip (env n) != "")).map
            (fun n => (n, pyStrip (env n))),
          missing ++ ns.filter (fun n => pyStrip (env n) == "")) := by
  intro ns
  induction ns with
  | nil => intro out missing _ _; simp [requireEnvGo]
  | cons n ns ih =>
      intro out missing hdisj hnd
      by_cases hv : pyStrip (env n) = ""
      · rw [requireEnvGo, if_pos hv,
          ih out (missing ++ [n]) (fun m hm => hdisj m (List.mem_cons_of_mem n hm))
            (List.Nodup.of_cons hnd)]
        rw [List.filter_cons, List.filter_cons]
        simp [hv]
      · rw [requireEnvGo, if_neg hv,
          dictInsert_fresh out n (pyStrip (env n)) (hdisj n (List.mem_cons_self n ns))]
        rw [ih (out ++ [(n, pyStrip (env n))]) missing ?_ (List.Nodup.of_cons hnd)]
        · rw [List.filter_cons, List.filter_cons]
          simp [hv]
        · intro m hm
          simp only [List.all_append, Bool.and_eq_true, List.all_eq_true, bne_iff_ne]
          refine ⟨fun kv hkv => ?_, fun kv hkv => ?_⟩
          · have := hdisj m (List.mem_cons_of_mem n hm)
            simp only [List.all_eq_true, bne_iff_ne] at this
            exact this kv hkv
          · rcases List.mem_singleton.mp hkv with rfl
            intro he
            have hne : n = m := he
            exact (List.nodup_cons.mp hnd).1 (by rw [hne]; exact hm)

/-- C9: `require_env` over the seven mandatory variables — whenever at
least one variable is unset, empty or whitespace-only (its fetched value
strips to empty), the run dies with exit code 2 and one message that
enumerates the complete list of missing names; when none is missing it
returns the mapping carrying every mandatory name bound to its stripped,
non-empty value. -/
theorem require_env_policy (env : String → String) :
    (mandatoryEnvNames.filter (fun n => pyStrip (env n) == "") ≠ [] →
        require_env mandatoryEnvNames env =
          .error (envFailMsg
            (mandatoryEnvNames.filter (fun n => pyStrip (env n) == "")), 2)) ∧
    (mandatoryEnvNames.filter (fun n => pyStrip (env n) == "") = [] →
        require_env mandatoryEnvNames env =
          .ok (mandatoryEnvNames.map (fun n => (n, pyStrip (env n)))) ∧
        ∀ n ∈ mandatoryEnvNames, pyStrip (env n) ≠ "") := by
  have hgo := requireEnvGo_eq env mandatoryEnvNames [] []
    (fun n _ => rfl) (by decide)
  constructor
  · intro hmiss
    unfold require_env
    rw [hgo, if_pos (by simpa using hmiss)]
    simp
  · intro hnone
    have hall : ∀ n ∈ mandatoryEnvNames, pyStrip (env n) ≠ "" := by
      intro n hn he
      have : n ∈ mandatoryEnvNames.filter (fun n => pyStrip (env n) == "") :=
        List.mem_filter.mpr ⟨hn, by simp [he]⟩
      rw [hnone] at this
      exact absurd this (List.not_mem_nil n)
    refine ⟨?_, hall⟩
    unfold require_env
    rw [hgo, if_neg (by simp [hnone])]
    have hfl : mandatoryEnvNames.filter (fun n => pyStrip (env n) != "") =
        mandatoryEnvNames := by
      refine List.filter_eq_self.mpr ?_
      intro n hn
      simpa using hall n hn
    rw [hfl]
    simp

/-- An environment with one whitespace-only mandatory variable. -/
def envMissingClientId : String → String :=
  fun n => if n == "CLIENT_ID" then " " else "x"

/-- Witness: with `CLIENT_ID` whitespace-only the run dies with code 2
and the message listing exactly the missing names. -/
theorem require_env_policy_witness :
    require_env mandatoryEnvNames envMissingClientId =
      .error (envFailMsg
        (mandatoryEnvNames.filter (fun n => pyStrip (envMissingClientId n) == "")), 2) :=
  (require_env_policy envMissingClientId).1 (by decide)
